import Mathlib

/-!
# Shallow embedding of the trVAE / RCVAE kernel and MMD computations

This file embeds, as executable Lean definitions, the algorithmic core of the
`rcvae` model classes:

* `src/rcvae/models/_rae.py` (class `RCVAE`): `squared_distance`,
  `compute_kernel` (branches `rbf`, `raphy`, `multi-scale-rbf`),
  `compute_mmd`, the `mmd_loss` closure of `_loss_function`, the artifact
  file names written by `train(save=True)` and read by `restore_model`.
* `src/rcvae/models/_rcvae_multi_tf.py` (class `RCVAEMultiTF`):
  `compute_kernel` (branches `rbf`, `multi-scale-rbf`), `compute_mmd`,
  the pairwise-MMD accumulation loop of `_loss_function`, and the
  epoch/early-stopping loop of `train`.
* `src/rcvae/models/_rccvae.py` (class `RCCVAE`): the `mmd_loss` closure,
  which partitions with `num_partitions=2` exactly as in `RCVAE`.

Tensors of shape `[batch, dim]` are embedded as `List (List α)` over an
arbitrary `Field α` (row = sample).  The floating-point exponential is a
parameter `expf : α → α`, so every definition is computable; theorems that
speak about the true exponential instantiate `α := ℝ`, `expf := Real.exp`.
TensorFlow's `reduce_mean` over an empty tensor produces NaN by a `0/0`
division; in a field `0/0 = 0`, and the predicate `meanDivByZero` marks
exactly the matrices on which that degenerate division happens.
-/

/-- Pairwise squared Euclidean distance matrix, from `squared_distance` in
`_rae.py` (and identically in `_rcvae_multi_tf.py`):
`r = expand_dims(x, 1); sum(square(r - y), axis=-1)`.
Entry `(i,j)` is the sum over features of `(x_i - y_j)^2`. -/
def squared_distance {α : Type} [Field α] (x y : List (List α)) : List (List α) :=
  x.map fun xi => y.map fun yj => (List.zipWith (fun a b => (a - b) ^ 2) xi yj).sum

/-- The `rbf` branch of `compute_kernel`: tile `x` and `y` against each other,
take the mean over the feature axis of the squared differences, divide by the
feature dimension `K.shape(x)[1]`, negate, exponentiate.  Entry `(i,j)` is
`expf (-(meanSq x_i y_j) / dim)` where `meanSq` already divides by `dim`. -/
def rbfKernelMatrix {α : Type} [Field α] (expf : α → α) (x y : List (List α)) :
    List (List α) :=
  let dim : ℕ := (x.headD []).length
  x.map fun xi => y.map fun yj =>
    expf (-((List.zipWith (fun a b => (a - b) ^ 2) xi yj).sum / (dim : α)) / (dim : α))

/-- The `raphy` branch of `compute_kernel`: `weights` is (degenerately) the
number of scales, and entry `(i,j)` is
`weights * Σ_{σ ∈ scales} expf (-(d_ij) / σ^2)` with `d` the pairwise squared
distance matrix (sum over the scale axis of the broadcast product). -/
def raphyKernelMatrix {α : Type} [Field α] (expf : α → α) (scales : List α)
    (x y : List (List α)) : List (List α) :=
  let weights : α := (scales.length : α)
  (squared_distance x y).map
    (List.map fun d => (scales.map fun σ => weights * expf (-d / σ ^ 2)).sum)

/-- The fixed bandwidth list of the `multi-scale-rbf` branch, verbatim from
the source: `[1e-6, 1e-5, ..., 1e5, 1e6]`. -/
def sigmas (α : Type) [Field α] : List α :=
  [1 / 1000000, 1 / 100000, 1 / 10000, 1 / 1000, 1 / 100, 1 / 10,
   1, 5, 10, 15, 20, 25, 30, 35, 100, 1000, 10000, 100000, 1000000]

/-- Rebuild a flat list into the row structure of a template matrix
(embedding of `reshape(_, shape(distances))`). -/
def unflattenLike {α : Type} : List (List α) → List α → List (List α)
  | [], _ => []
  | r :: rs, fl => fl.take r.length :: unflattenLike rs (fl.drop r.length)

/-- The `multi-scale-rbf` branch of `compute_kernel`:
`beta = 1/(2*sigmas)` as a column, `s = beta ⬝ reshape(distances, (1,-1))`,
then `reshape(reduce_sum(exp(-s), 0), shape(distances)) / len(sigmas)`. -/
def msrbfKernelMatrix {α : Type} [Field α] (expf : α → α) (x y : List (List α)) :
    List (List α) :=
  let distances := squared_distance x y
  let flat := distances.flatten
  let s : List (List α) := (sigmas α).map fun σ => flat.map fun d => 1 / (2 * σ) * d
  let summed : List α :=
    s.foldr (fun row acc => List.zipWith (· + ·) (row.map fun v => expf (-v)) acc)
      (List.replicate flat.length 0)
  (unflattenLike distances summed).map (List.map (· / ((sigmas α).length : α)))

/-- `RCVAE.compute_kernel(x, y, kernel, scales)` from `_rae.py`: dispatch on
the kernel name; an unmatched name falls off the end of the Python function
and returns `None`, embedded as `none`. -/
def RCVAE.compute_kernel {α : Type} [Field α] (expf : α → α) (x y : List (List α))
    (kernel : String) (scales : List α) : Option (List (List α)) :=
  if kernel = "rbf" then some (rbfKernelMatrix expf x y)
  else if kernel = "raphy" then some (raphyKernelMatrix expf scales x y)
  else if kernel = "multi-scale-rbf" then some (msrbfKernelMatrix expf x y)
  else none

/-- `RCVAEMultiTF.compute_kernel(x, y, kernel)` from `_rcvae_multi_tf.py`:
same dispatch but with no `raphy` branch. -/
def RCVAEMultiTF.compute_kernel {α : Type} [Field α] (expf : α → α)
    (x y : List (List α)) (kernel : String) : Option (List (List α)) :=
  if kernel = "rbf" then some (rbfKernelMatrix expf x y)
  else if kernel = "multi-scale-rbf" then some (msrbfKernelMatrix expf x y)
  else none

/-- Sum of all entries of a matrix. -/
def entrySum {α : Type} [Field α] (m : List (List α)) : α := (m.map List.sum).sum

/-- Number of entries of a matrix. -/
def entryCount {α : Type} (m : List (List α)) : ℕ := (m.map List.length).sum

/-- `K.mean` / `tf.reduce_mean` over all entries, as guarded division: in a
field the degenerate case divides by `(0 : α)` and yields `0` where
TensorFlow would yield NaN. -/
def matMean {α : Type} [Field α] (m : List (List α)) : α :=
  entrySum m / (entryCount m : α)

/-- The degenerate (division-by-zero) branch of `matMean`: the matrix has no
entries, which is where TensorFlow's `reduce_mean` emits NaN. -/
def meanDivByZero {α : Type} (m : List (List α)) : Prop := entryCount m = 0

instance {α : Type} (m : List (List α)) : Decidable (meanDivByZero m) := by
  unfold meanDivByZero; infer_instance

/-- `RCVAE.compute_mmd(x, y, kernel)` from `_rae.py`:
`mean(K(x,x)) + mean(K(y,y)) - 2*mean(K(x,y))`; a `None` kernel (unsupported
name) makes the Python `K.mean` raise, embedded as `none`. -/
def RCVAE.compute_mmd {α : Type} [Field α] (expf : α → α) (x y : List (List α))
    (kernel : String) (scales : List α) : Option α :=
  match RCVAE.compute_kernel expf x x kernel scales,
        RCVAE.compute_kernel expf y y kernel scales,
        RCVAE.compute_kernel expf x y kernel scales with
  | some xk, some yk, some xyk => some (matMean xk + matMean yk - 2 * matMean xyk)
  | _, _, _ => none

/-- `RCVAEMultiTF.compute_mmd(x, y, kernel)` from `_rcvae_multi_tf.py`. -/
def RCVAEMultiTF.compute_mmd {α : Type} [Field α] (expf : α → α)
    (x y : List (List α)) (kernel : String) : Option α :=
  match RCVAEMultiTF.compute_kernel expf x x kernel,
        RCVAEMultiTF.compute_kernel expf y y kernel,
        RCVAEMultiTF.compute_kernel expf x y kernel with
  | some xk, some yk, some xyk => some (matMean xk + matMean yk - 2 * matMean xyk)
  | _, _, _ => none

/-- `tf.dynamic_partition(data, labels, num_partitions)`: partition `k` holds,
in original order, the rows whose label equals `k`.  TensorFlow requires every
label to lie in `[0, num_partitions)`; `dynamicPartitionOk` is that
precondition. -/
def dynamicPartition {P : Type} (data : List P) (labels : List ℕ) (num : ℕ) :
    List (List P) :=
  (List.range num).map fun k =>
    (data.zip labels).filterMap fun dl => if dl.2 = k then some dl.1 else none

/-- Precondition of `tf.dynamic_partition`: all labels in range. -/
def dynamicPartitionOk (labels : List ℕ) (num : ℕ) : Prop :=
  ∀ l ∈ labels, l < num

instance (labels : List ℕ) (num : ℕ) : Decidable (dynamicPartitionOk labels num) := by
  unfold dynamicPartitionOk; infer_instance

/-- The `mmd_loss` closure of `RCVAE._loss_function` in `_rae.py` (the closure
in `RCCVAE._loss_function` of `_rccvae.py` is identical after its initial
reshape): labels are cast to int, the batch is split by
`tf.dynamic_partition(y_pred, real_labels, num_partitions=2)` into
`source_mmd, dest_mmd`, and the result is
`beta * compute_mmd(source_mmd, dest_mmd, kernel_method)`. -/
def RCVAE.mmd_loss {α : Type} [Field α] (expf : α → α) (beta : α)
    (kernelMethod : String) (realLabels : List ℕ) (yPred : List (List α)) :
    Option α :=
  let parts := dynamicPartition yPred realLabels 2
  let sourceMmd := parts.getD 0 []
  let destMmd := parts.getD 1 []
  (RCVAE.compute_mmd expf sourceMmd destMmd kernelMethod []).map (fun l => beta * l)

/-- `compute_mmd` with the `None` case collapsed to `0`; for every supported
kernel name the option is `some`, so this is only a convenience for the loss
accumulation loop below. -/
def RCVAEMultiTF.computeMmdD {α : Type} [Field α] (expf : α → α)
    (x y : List (List α)) (kernel : String) : α :=
  (RCVAEMultiTF.compute_mmd expf x y kernel).getD 0

/-- The MMD accumulation loop of `RCVAEMultiTF._loss_function`
(`_rcvae_multi_tf.py`, lines 248-251):

    loss = 0.0
    for i in range(len(conditions_mmd)):
        for j in range(i):
            loss += self.compute_mmd(conditions_mmd[j], conditions_mmd[j + 1], ...)

embedded as a double sum over `List.range`. -/
def RCVAEMultiTF.lossAccum {α : Type} [Field α] (expf : α → α) (kernel : String)
    (conditionsMmd : List (List (List α))) : α :=
  ((List.range conditionsMmd.length).map fun i =>
    ((List.range i).map fun j =>
      RCVAEMultiTF.computeMmdD expf (conditionsMmd.getD j [])
        (conditionsMmd.getD (j + 1) []) kernel).sum).sum

/-- The full MMD term of `RCVAEMultiTF._loss_function`: partition the
MMD-layer activations by the argmax labels into `n_conditions` groups, run the
accumulation loop, scale by `beta`. -/
def RCVAEMultiTF.mmdLossTerm {α : Type} [Field α] (expf : α → α) (beta : α)
    (kernel : String) (mmdHl : List (List α)) (realLabels : List ℕ)
    (nConditions : ℕ) : α :=
  beta * RCVAEMultiTF.lossAccum expf kernel (dynamicPartition mmdHl realLabels nConditions)

/-- Artifact file names written by `RCVAE.train(..., save=True)`
(`_rae.py`, lines 410-414). -/
def RCVAE.trainSavedArtifacts : List String :=
  ["mmd_rae.h5", "encoder.h5", "decoder.h5"]

/-- Artifact file names read by `RCVAE.restore_model`
(`_rae.py`, lines 322-324), in load order. -/
def RCVAE.restoreArtifacts : List String :=
  ["mmd_ae.h5", "encoder.h5", "decoder.h5"]

/-- `keras.models.load_model` on a model directory: succeeds exactly when the
named artifact file is present, otherwise raises (embedded as `.error` naming
the missing file). -/
def load_model (available : List String) (file : String) : Except String String :=
  if file ∈ available then Except.ok file else Except.error file

/-- `RCVAE.restore_model` (`_rae.py`): load `mmd_ae.h5`, then `encoder.h5`,
then `decoder.h5` from the model directory; the first missing file aborts the
call. -/
def RCVAE.restore_model (available : List String) : Except String Unit := do
  let _ ← load_model available "mmd_ae.h5"
  let _ ← load_model available "encoder.h5"
  let _ ← load_model available "decoder.h5"
  Except.ok ()

/-- Result of the epoch loop of `RCVAEMultiTF.train`: either the early-stop
`break` fired at a given epoch index, or all epochs ran; `optSteps` counts the
optimizer steps (`sess.run(self.solver, ...)`) executed. -/
inductive LoopOutcome : Type
  | broke (atEpoch : ℕ) (optSteps : ℕ)
  | exhausted (optSteps : ℕ)
deriving DecidableEq

/-- The epoch loop of `RCVAEMultiTF.train` (`_rcvae_multi_tf.py`, lines
441-496), abstracting the per-epoch validation loss as an oracle
`validLoss : epoch index → α` (it is a function of the evolving parameters,
which the loss terms themselves do not constrain):

    for it in range(n_epochs):
        ... one optimizer step per training mini-batch ...
        if use_validation:
            ... accumulate valid_loss; loss_hist.append(...)
            if it > 0 and loss_hist[it-1] - loss_hist[it] > min_delta:
                patience_cnt = 0
            else:
                patience_cnt += 1
            if patience_cnt > patience:
                ... saver.save(...); break

`prev` carries `loss_hist[it-1]` (`none` exactly at `it = 0`), `remaining` is
the fuel `n_epochs - it`. -/
def RCVAEMultiTF.runEpochs {α : Type} [LinearOrderedField α] (useValidation : Bool)
    (validLoss : ℕ → α) (batchesPerEpoch patience : ℕ) (minDelta : α) :
    (remaining it : ℕ) → (prev : Option α) → (patienceCnt : ℕ) → (steps : ℕ) →
    LoopOutcome
  | 0, _, _, _, steps => LoopOutcome.exhausted steps
  | n + 1, it, prev, cnt, steps =>
    let steps := steps + batchesPerEpoch
    if useValidation then
      let cur := validLoss it
      let cnt := match prev with
        | some p => if p - cur > minDelta then 0 else cnt + 1
        | none => cnt + 1
      if cnt > patience then LoopOutcome.broke it steps
      else RCVAEMultiTF.runEpochs useValidation validLoss batchesPerEpoch patience
        minDelta n (it + 1) (some cur) cnt steps
    else RCVAEMultiTF.runEpochs useValidation validLoss batchesPerEpoch patience
      minDelta n (it + 1) none cnt steps

/-- What a `train` call produced: the loop outcome, whether the break branch
saved a checkpoint (`saver.save` right before `break`), and whether the final
save after the loop ran (it always does when the loop is reached). -/
structure TrainRun : Type where
  outcome : LoopOutcome
  savedAtBreak : Bool
  finalSaved : Bool
deriving DecidableEq

/-- `RCVAEMultiTF.train` (`_rcvae_multi_tf.py`): the
`use_validation and valid_data is None` configuration check raises before the
epoch loop is entered, so no optimizer step and no parameter update happens on
that error; otherwise the loop of `runEpochs` runs and the model is saved at
the end (and additionally at the break point when early stopping fires).
`RCVAE.train` in `_rae.py` performs the identical check before calling
`fit`. -/
def RCVAEMultiTF.train {α : Type} [LinearOrderedField α] {V : Type}
    (useValidation : Bool) (validData : Option V) (validLoss : ℕ → α)
    (nEpochs batchesPerEpoch patience : ℕ) (minDelta : α) :
    Except String TrainRun :=
  if useValidation && validData.isNone then
    Except.error "valid_data is None but use_validation is True."
  else
    let oc := RCVAEMultiTF.runEpochs useValidation validLoss batchesPerEpoch
      patience minDelta nEpochs 0 none 0 0
    Except.ok
      { outcome := oc
        savedAtBreak := match oc with
          | LoopOutcome.broke _ _ => true
          | LoopOutcome.exhausted _ => false
        finalSaved := true }

/-- Spec-side group-by (§9 of the spec: "explicit group-by over the label
vector"): the rows of `data` whose label equals `k`, in order.  Used to state
what partition `k` of `tf.dynamic_partition` must contain. -/
def specGroup {P : Type} (data : List P) (labels : List ℕ) (k : ℕ) : List P :=
  ((data.zip labels).filter fun dl => dl.2 = k).map fun dl => dl.1

/-- Counting identity behind the accumulation loop: summing `f j` for
`j < i < N` counts the pair-term `f j` once per later loop index, i.e.
`N - 1 - j` times. -/
theorem doubleRangeSum {α : Type} [Field α] (N : ℕ) (f : ℕ → α) :
    ∑ i ∈ Finset.range N, ∑ j ∈ Finset.range i, f j
      = ∑ j ∈ Finset.range (N - 1), ((N - 1 - j : ℕ) : α) * f j := by
  induction N with
  | zero => simp
  | succ n ih =>
    rw [Finset.sum_range_succ, ih]
    cases n with
    | zero => simp
    | succ m =>
      have h1 : (m + 1 : ℕ) + 1 - 1 = m + 1 := rfl
      have h2 : (m + 1 : ℕ) - 1 = m := rfl
      rw [h1, h2]
      rw [Finset.sum_range_succ (fun j => ((m + 1 - j : ℕ) : α) * f j)]
      have h3 : ((m + 1 - m : ℕ) : α) = 1 := by norm_num
      rw [Finset.sum_range_succ (f := f)]
      have h4 : ∀ j ∈ Finset.range m, ((m + 1 - j : ℕ) : α) * f j
          = ((m - j : ℕ) : α) * f j + f j := by
        intro j hj
        rw [Finset.mem_range] at hj
        have h5 : (m + 1 - j : ℕ) = (m - j) + 1 := by omega
        rw [h5]
        push_cast
        ring
      rw [Finset.sum_congr rfl h4, Finset.sum_add_distrib, h3]
      ring

/-- The accumulation loop as a weighted adjacent-pair sum (shared helper):
pair `(k, k+1)` appears once per outer index `i > k`, i.e. `N - 1 - k`
times. -/
theorem lossAccumWeighted {α : Type} [Field α]
    (expf : α → α) (kernel : String) (parts : List (List (List α))) :
    RCVAEMultiTF.lossAccum expf kernel parts
      = ∑ k ∈ Finset.range (parts.length - 1),
          ((parts.length - 1 - k : ℕ) : α) *
            RCVAEMultiTF.computeMmdD expf (parts.getD k [])
              (parts.getD (k + 1) []) kernel := by
  have h : RCVAEMultiTF.lossAccum expf kernel parts
      = ∑ i ∈ Finset.range parts.length, ∑ j ∈ Finset.range i,
          RCVAEMultiTF.computeMmdD expf (parts.getD j [])
            (parts.getD (j + 1) []) kernel := rfl
  rw [h, doubleRangeSum]

/-- C1 (amended): in `RCVAEMultiTF._loss_function`, the accumulated MMD term
over the `N` condition partitions equals the weighted sum over adjacent
partition pairs `(k, k+1)`, `k = 0 .. N-2`, in which pair `k` contributes
`N - 1 - k` times (once for every outer loop index `i > k`); no non-adjacent
pair ever contributes.  In particular for `N = 2` each adjacent pair
contributes exactly once, but for `N > 2` the earlier adjacent pairs are
counted multiply, so the claim's "each adjacent pair contributing exactly
once" holds only for `N = 2`. -/
theorem RCVAEMultiTF.lossAccum_adjacent_multiplicity {α : Type} [Field α]
    (expf : α → α) (kernel : String) (parts : List (List (List α))) :
    RCVAEMultiTF.lossAccum expf kernel parts
      = ∑ k ∈ Finset.range (parts.length - 1),
          ((parts.length - 1 - k : ℕ) : α) *
            RCVAEMultiTF.computeMmdD expf (parts.getD k [])
              (parts.getD (k + 1) []) kernel :=
  lossAccumWeighted expf kernel parts

/-- C1 (counterexample): with three conditions (labels `0,1,2` on the batch
`[[0],[1],[2]]`, `rbf` kernel, real exponential) the accumulated loop value is
`2*mmd(p0,p1) + mmd(p1,p2)`, which differs from the once-each adjacent-pair
sum `mmd(p0,p1) + mmd(p1,p2)` because `mmd(p0,p1) = 2 - 2*exp(-1) ≠ 0`. -/
theorem RCVAEMultiTF.lossAccum_adjacent_once_counterexample :
    RCVAEMultiTF.lossAccum Real.exp "rbf"
        (dynamicPartition [[(0 : ℝ)], [1], [2]] [0, 1, 2] 3)
      ≠ ∑ k ∈ Finset.range 2,
          RCVAEMultiTF.computeMmdD Real.exp
            ((dynamicPartition [[(0 : ℝ)], [1], [2]] [0, 1, 2] 3).getD k [])
            ((dynamicPartition [[(0 : ℝ)], [1], [2]] [0, 1, 2] 3).getD (k + 1) [])
            "rbf" := by
  have hparts : dynamicPartition [[(0 : ℝ)], [1], [2]] [0, 1, 2] 3
      = [[[0]], [[1]], [[2]]] := by
    simp [dynamicPartition, List.range_succ]
  rw [hparts, lossAccumWeighted]
  have hm0 : RCVAEMultiTF.computeMmdD Real.exp [[(0 : ℝ)]] [[1]] "rbf"
      = 2 - 2 * Real.exp (-1) := by
    simp [RCVAEMultiTF.computeMmdD, RCVAEMultiTF.compute_mmd,
      RCVAEMultiTF.compute_kernel, rbfKernelMatrix, matMean, entrySum, entryCount]
    norm_num
  have hm1 : RCVAEMultiTF.computeMmdD Real.exp [[(1 : ℝ)]] [[2]] "rbf"
      = 2 - 2 * Real.exp (-1) := by
    simp [RCVAEMultiTF.computeMmdD, RCVAEMultiTF.compute_mmd,
      RCVAEMultiTF.compute_kernel, rbfKernelMatrix, matMean, entrySum, entryCount]
    norm_num
  simp only [Finset.sum_range_succ, Finset.sum_range_zero, List.length_cons,
    List.length_nil, List.getD]
  norm_num [hm0, hm1]
  intro h
  have h1 : Real.exp (-1) = 1 := by linarith
  rw [show (1 : ℝ) = Real.exp 0 from (Real.exp_zero).symm, Real.exp_eq_exp] at h1
  norm_num at h1

/-- Entry `(i,j)` of a map-of-map matrix, via `getD` (shared helper). -/
theorem mapMatrix_getD {α β : Type} (f : List α → List α → β) (x y : List (List α))
    (i j : ℕ) (hi : i < x.length) (hj : j < y.length) (d : β) :
    ((x.map fun xi => y.map fun yj => f xi yj).getD i []).getD j d
      = f (x.getD i []) (y.getD j []) := by
  have hx : (x.map fun xi => y.map fun yj => f xi yj).getD i []
      = (y.map fun yj => f (x.getD i []) yj) := by
    simp [List.getD_eq_getElem?_getD, List.getElem?_map, List.getElem?_eq_getElem hi]
  rw [hx]
  simp [List.getD_eq_getElem?_getD, List.getElem?_map, List.getElem?_eq_getElem hj]

/-- C2 (counterexample): the claim asserts
`compute_kernel([[0,0]], [[1,1]], "rbf")` returns `exp(-1)`, but the source
divides the squared difference twice by `dim` (once inside `K.mean`, once
explicitly), so the entry is `exp(-((1+1)/2)/2) = exp(-1/2) ≠ exp(-1)`. -/
theorem RCVAE.compute_kernel_rbf_literal_counterexample :
    RCVAE.compute_kernel Real.exp [[(0 : ℝ), 0]] [[1, 1]] "rbf" []
      ≠ some [[Real.exp (-1)]] := by
  simp only [RCVAE.compute_kernel, rbfKernelMatrix, if_true, reduceIte,
    List.map_cons, List.map_nil]
  intro h
  have h1 : Real.exp (-((List.zipWith (fun a b => (a - b) ^ 2) [(0 : ℝ), 0] [1, 1]).sum
      / (([[(0 : ℝ), 0]].headD []).length : ℝ)) / (([[(0 : ℝ), 0]].headD []).length : ℝ))
      = Real.exp (-1) := by
    have := congrArg (fun o => ((o.getD []).getD 0 []).getD 0 0) h
    simpa using this
  rw [Real.exp_eq_exp] at h1
  norm_num at h1

/-- C2 (amended): entry `(i,j)` of the `rbf` kernel (both in `RCVAE` of
`_rae.py` and `RCVAEMultiTF` of `_rcvae_multi_tf.py`) equals
`expf(-(mean squared difference of rows x_i, y_j) / dim)` — the mean squared
difference already divides by `dim`, and the code divides by `dim` again; on
the literal examples, `x=[[0,0]], y=[[0,0]]` gives `1.0` and
`x=[[0,0]], y=[[1,1]]` gives `exp(-1/2)` (not `exp(-1)`). -/
theorem RCVAE.compute_kernel_rbf_entry_formula {α : Type} [Field α]
    (expf : α → α) (x y : List (List α)) (i j : ℕ)
    (hi : i < x.length) (hj : j < y.length) :
    (((RCVAE.compute_kernel expf x y "rbf" []).getD []).getD i []).getD j 0
        = expf (-((List.zipWith (fun a b => (a - b) ^ 2) (x.getD i [])
            (y.getD j [])).sum / ((x.headD []).length : α))
            / ((x.headD []).length : α))
      ∧ (((RCVAEMultiTF.compute_kernel expf x y "rbf").getD []).getD i []).getD j 0
        = expf (-((List.zipWith (fun a b => (a - b) ^ 2) (x.getD i [])
            (y.getD j [])).sum / ((x.headD []).length : α))
            / ((x.headD []).length : α))
      ∧ RCVAE.compute_kernel Real.exp [[(0 : ℝ), 0]] [[0, 0]] "rbf" [] = some [[1]]
      ∧ RCVAE.compute_kernel Real.exp [[(0 : ℝ), 0]] [[1, 1]] "rbf" []
          = some [[Real.exp (-(1 / 2))]] := by
  refine ⟨?_, ?_, ?_, ?_⟩
  · have h : (RCVAE.compute_kernel expf x y "rbf" []).getD []
        = rbfKernelMatrix expf x y := rfl
    rw [h, rbfKernelMatrix]
    exact mapMatrix_getD _ x y i j hi hj 0
  · have h : (RCVAEMultiTF.compute_kernel expf x y "rbf").getD []
        = rbfKernelMatrix expf x y := rfl
    rw [h, rbfKernelMatrix]
    exact mapMatrix_getD _ x y i j hi hj 0
  · simp [RCVAE.compute_kernel, rbfKernelMatrix]
  · simp [RCVAE.compute_kernel, rbfKernelMatrix]
    norm_num

/-- C2 (witness): the entry formula evaluated at a concrete input. -/
theorem RCVAE.compute_kernel_rbf_entry_formula_witness :
    (((RCVAE.compute_kernel (fun q => 1 + q) [[(3 : ℚ)]] [[5]] "rbf" []).getD
        []).getD 0 []).getD 0 0
      = (fun q => 1 + (q : ℚ))
          (-((List.zipWith (fun a b => (a - b) ^ 2) ([[(3 : ℚ)]].getD 0 [])
            ([[(5 : ℚ)]].getD 0 [])).sum / (([[(3 : ℚ)]].headD []).length : ℚ))
            / (([[(3 : ℚ)]].headD []).length : ℚ)) :=
  (RCVAE.compute_kernel_rbf_entry_formula (fun q => 1 + q) [[(3 : ℚ)]] [[5]] 0 0
    (by decide) (by decide)).1

/-- C3: `RCVAE.train(..., save=True)` writes `mmd_rae.h5`, `encoder.h5`,
`decoder.h5`, but `RCVAE.restore_model` tries to load `mmd_ae.h5` first; that
file is never written, so the restore aborts with the missing `mmd_ae.h5`
before loading anything, and the save → restore → `to_latent` round-trip of
the claim cannot succeed. -/
theorem RCVAE.restore_after_train_save_fails :
    RCVAE.restore_model RCVAE.trainSavedArtifacts = Except.error "mmd_ae.h5"
      ∧ "mmd_ae.h5" ∉ RCVAE.trainSavedArtifacts
      ∧ "mmd_ae.h5" ∈ RCVAE.restoreArtifacts := by
  refine ⟨rfl, by decide, by decide⟩

/-- C4: for every supported kernel name, `compute_mmd(x, y, kernel)` equals
`mean(K(x,x)) + mean(K(y,y)) - 2*mean(K(x,y))` with the mean taken over all
entries of each kernel matrix — in `RCVAE` (`_rae.py`, kernels `rbf`,
`raphy`, `multi-scale-rbf`) and in `RCVAEMultiTF` (`_rcvae_multi_tf.py`,
kernels `rbf`, `multi-scale-rbf`). -/
theorem compute_mmd_kernel_mean_combination {α : Type} [Field α]
    (expf : α → α) (x y : List (List α)) (scales : List α) (kernel : String)
    (hx : x ≠ []) (hy : y ≠ []) :
    (kernel ∈ ["rbf", "raphy", "multi-scale-rbf"] →
      RCVAE.compute_mmd expf x y kernel scales
        = some (matMean ((RCVAE.compute_kernel expf x x kernel scales).getD [])
            + matMean ((RCVAE.compute_kernel expf y y kernel scales).getD [])
            - 2 * matMean ((RCVAE.compute_kernel expf x y kernel scales).getD [])))
    ∧ (kernel ∈ ["rbf", "multi-scale-rbf"] →
      RCVAEMultiTF.compute_mmd expf x y kernel
        = some (matMean ((RCVAEMultiTF.compute_kernel expf x x kernel).getD [])
            + matMean ((RCVAEMultiTF.compute_kernel expf y y kernel).getD [])
            - 2 * matMean ((RCVAEMultiTF.compute_kernel expf x y kernel).getD []))) := by
  constructor
  · intro hk
    fin_cases hk <;> rfl
  · intro hk
    fin_cases hk <;> rfl

/-- C4 (witness): the mean-combination identity at a concrete input. -/
theorem compute_mmd_kernel_mean_combination_witness :
    RCVAE.compute_mmd (fun q => 1 + q) [[(0 : ℚ)]] [[1]] "rbf" []
      = some (matMean ((RCVAE.compute_kernel (fun q => 1 + q) [[(0 : ℚ)]]
            [[(0 : ℚ)]] "rbf" []).getD [])
          + matMean ((RCVAE.compute_kernel (fun q => 1 + q) [[(1 : ℚ)]]
            [[(1 : ℚ)]] "rbf" []).getD [])
          - 2 * matMean ((RCVAE.compute_kernel (fun q => 1 + q) [[(0 : ℚ)]]
            [[(1 : ℚ)]] "rbf" []).getD [])) :=
  (compute_mmd_kernel_mean_combination (fun q => 1 + q) [[(0 : ℚ)]] [[1]] []
    "rbf" (by decide) (by decide)).1 (by decide)

/-- C7: for every supported kernel name and non-empty batch `x`,
`compute_mmd(x, x, kernel) = 0` exactly (in field arithmetic): the three
kernel matrices coincide when both arguments are `x`, so the combination
`mean + mean - 2*mean` cancels. Holds for `RCVAE` and `RCVAEMultiTF`. -/
theorem compute_mmd_self_zero {α : Type} [Field α]
    (expf : α → α) (x : List (List α)) (scales : List α) (kernel : String)
    (hx : x ≠ []) :
    (kernel ∈ ["rbf", "raphy", "multi-scale-rbf"] →
      RCVAE.compute_mmd expf x x kernel scales = some 0)
    ∧ (kernel ∈ ["rbf", "multi-scale-rbf"] →
      RCVAEMultiTF.compute_mmd expf x x kernel = some 0) := by
  constructor
  · intro hk
    fin_cases hk <;>
      · show some _ = some 0
        congr 1
        ring
  · intro hk
    fin_cases hk <;>
      · show some _ = some 0
        congr 1
        ring

/-- C7 (witness): self-MMD at a concrete non-empty batch. -/
theorem compute_mmd_self_zero_witness :
    RCVAE.compute_mmd (fun q => 1 + q) [[(2 : ℚ)], [3]] [[(2 : ℚ)], [3]]
      "multi-scale-rbf" [] = some 0 :=
  (compute_mmd_self_zero (fun q => 1 + q) [[(2 : ℚ)], [3]] [] "multi-scale-rbf"
    (by decide)).1 (by decide)

/-- Pointwise sum of two mapped lists (shared helper). -/
theorem zipWith_add_map {α β : Type} [Add β] (g h : α → β) (l : List α) :
    List.zipWith (· + ·) (l.map g) (l.map h) = l.map fun d => g d + h d := by
  induction l with
  | nil => rfl
  | cons a l ih => simp [ih]

/-- The `reduce_sum(exp(-s), 0)` stage of the multi-scale kernel: summing the
per-bandwidth rows pointwise equals mapping each flattened distance to its sum
over bandwidths (shared helper). -/
theorem msFoldr {α : Type} [Field α] (expf : α → α) (σs flat : List α) :
    (σs.map fun σ => flat.map fun d => 1 / (2 * σ) * d).foldr
        (fun row acc => List.zipWith (· + ·) (row.map fun v => expf (-v)) acc)
        (List.replicate flat.length 0)
      = flat.map fun d => (σs.map fun σ => expf (-(1 / (2 * σ) * d))).sum := by
  induction σs with
  | nil => simp [List.eq_replicate_iff]
  | cons σ σs ih =>
    simp only [List.map_cons, List.foldr_cons, ih, List.map_map, Function.comp_def]
    rw [zipWith_add_map]
    simp

/-- Reshaping a mapped flattening recovers the row structure (shared helper). -/
theorem unflattenLike_map {α : Type} (g : α → α) (m : List (List α)) :
    unflattenLike m (m.flatten.map g) = m.map (List.map g) := by
  induction m with
  | nil => rfl
  | cons r rs ih =>
    simp only [List.flatten_cons, List.map_append, unflattenLike, List.map_cons]
    rw [← List.length_map r g, List.take_left, List.drop_left, ih]

/-- The multi-scale kernel matrix, characterized entrywise (shared helper). -/
theorem msrbfKernelMatrix_eq {α : Type} [Field α] (expf : α → α)
    (x y : List (List α)) :
    msrbfKernelMatrix expf x y
      = x.map fun xi => y.map fun yj =>
          (((sigmas α).map fun σ =>
            expf (-(1 / (2 * σ) * (List.zipWith (fun a b => (a - b) ^ 2) xi yj).sum))).sum)
            / ((sigmas α).length : α) := by
  unfold msrbfKernelMatrix
  dsimp only
  rw [msFoldr, unflattenLike_map]
  simp [squared_distance, List.map_map, Function.comp_def]

/-- C5: entry `(i,j)` of `compute_kernel(x, y, "multi-scale-rbf")` (in both
`RCVAE` and `RCVAEMultiTF`) is the equal-weight average, over the 19 fixed
bandwidths `sigmas` spanning `1e-6` to `1e6`, of the per-bandwidth RBF value
`expf(-(d_ij / (2*σ)))` applied to the pairwise squared Euclidean distance
`d_ij` of rows `x_i`, `y_j`: `(1/19) * Σ_σ expf(-(d_ij/(2σ)))`. -/
theorem msrbf_kernel_bandwidth_average {α : Type} [Field α] (expf : α → α)
    (x y : List (List α)) (i j : ℕ) (hi : i < x.length) (hj : j < y.length) :
    (sigmas α).length = 19
    ∧ (sigmas α).headD 0 = 1 / 1000000
    ∧ (sigmas α).getLast? = some 1000000
    ∧ (((RCVAE.compute_kernel expf x y "multi-scale-rbf" []).getD []).getD i
          []).getD j 0
        = 1 / 19 * (((sigmas α).map fun σ =>
            expf (-((List.zipWith (fun a b => (a - b) ^ 2) (x.getD i [])
              (y.getD j [])).sum / (2 * σ)))).sum)
    ∧ (((RCVAEMultiTF.compute_kernel expf x y "multi-scale-rbf").getD []).getD i
          []).getD j 0
        = 1 / 19 * (((sigmas α).map fun σ =>
            expf (-((List.zipWith (fun a b => (a - b) ^ 2) (x.getD i [])
              (y.getD j [])).sum / (2 * σ)))).sum) := by
  have hmat : ∀ m : Option (List (List α)), m = some (msrbfKernelMatrix expf x y) →
      ((m.getD []).getD i []).getD j 0
        = 1 / 19 * (((sigmas α).map fun σ =>
            expf (-((List.zipWith (fun a b => (a - b) ^ 2) (x.getD i [])
              (y.getD j [])).sum / (2 * σ)))).sum) := by
    intro m hm
    subst hm
    show ((msrbfKernelMatrix expf x y).getD i []).getD j 0 = _
    rw [msrbfKernelMatrix_eq]
    rw [mapMatrix_getD (fun xi yj =>
      (((sigmas α).map fun σ =>
        expf (-(1 / (2 * σ) * (List.zipWith (fun a b => (a - b) ^ 2) xi yj).sum))).sum)
        / ((sigmas α).length : α)) x y i j hi hj]
    simp only [one_div_mul_eq_div]
    have hlen : (((sigmas α).length : ℕ) : α) = 19 := by norm_num [sigmas]
    rw [hlen]
  refine ⟨rfl, rfl, rfl, hmat _ rfl, hmat _ rfl⟩

/-- C5 (witness): the bandwidth-average formula at a concrete input. -/
theorem msrbf_kernel_bandwidth_average_witness :
    (sigmas ℚ).length = 19
    ∧ (sigmas ℚ).headD 0 = 1 / 1000000
    ∧ (sigmas ℚ).getLast? = some 1000000
    ∧ (((RCVAE.compute_kernel id [[(0 : ℚ)]] [[2]] "multi-scale-rbf" []).getD
          []).getD 0 []).getD 0 0
        = 1 / 19 * (((sigmas ℚ).map fun σ =>
            id (-((List.zipWith (fun a b => (a - b) ^ 2) ([[(0 : ℚ)]].getD 0 [])
              ([[(2 : ℚ)]].getD 0 [])).sum / (2 * σ)))).sum)
    ∧ (((RCVAEMultiTF.compute_kernel id [[(0 : ℚ)]] [[2]] "multi-scale-rbf").getD
          []).getD 0 []).getD 0 0
        = 1 / 19 * (((sigmas ℚ).map fun σ =>
            id (-((List.zipWith (fun a b => (a - b) ^ 2) ([[(0 : ℚ)]].getD 0 [])
              ([[(2 : ℚ)]].getD 0 [])).sum / (2 * σ)))).sum) :=
  msrbf_kernel_bandwidth_average id [[(0 : ℚ)]] [[2]] 0 0 (by decide) (by decide)

/-- A matrix with constant row length `c` has `|m| * c` entries
(shared helper). -/
theorem entryCount_of_rowLength {α : Type} (m : List (List α)) (c : ℕ)
    (h : ∀ r ∈ m, r.length = c) : entryCount m = m.length * c := by
  induction m with
  | nil => simp [entryCount]
  | cons r rs ih =>
    have hr : r.length = c := h r (List.mem_cons_self r rs)
    have hrs : ∀ x ∈ rs, x.length = c := fun x hx => h x (List.mem_cons_of_mem r hx)
    have hstep : entryCount (r :: rs) = r.length + entryCount rs := by
      simp [entryCount]
    rw [hstep, hr, ih hrs, List.length_cons]
    ring

/-- Rows of a map-of-map matrix all have length `|y|` (shared helper). -/
theorem mapMatrix_rowLength {α β : Type} (f : List α → List α → β)
    (x y : List (List α)) :
    ∀ r ∈ x.map fun xi => y.map fun yj => f xi yj, r.length = y.length := by
  intro r hr
  rcases List.mem_map.mp hr with ⟨xi, _, rfl⟩
  simp

/-- Every supported kernel matrix has `|x| * |y|` entries (shared helper). -/
theorem entryCount_compute_kernel {α : Type} [Field α] (expf : α → α)
    (x y : List (List α)) (scales : List α) (kernel : String)
    (hk : kernel ∈ ["rbf", "raphy", "multi-scale-rbf"]) :
    entryCount ((RCVAE.compute_kernel expf x y kernel scales).getD [])
      = x.length * y.length := by
  fin_cases hk
  · show entryCount (rbfKernelMatrix expf x y) = _
    unfold rbfKernelMatrix
    dsimp only
    refine Eq.trans (entryCount_of_rowLength _ y.length (mapMatrix_rowLength _ x y))
      (by simp)
  · show entryCount (raphyKernelMatrix expf scales x y) = _
    refine Eq.trans (entryCount_of_rowLength _ y.length ?_) (by simp [raphyKernelMatrix, squared_distance])
    intro r hr
    unfold raphyKernelMatrix squared_distance at hr
    simp only [List.map_map, List.mem_map] at hr
    rcases hr with ⟨xi, _, rfl⟩
    simp
  · show entryCount (msrbfKernelMatrix expf x y) = _
    rw [msrbfKernelMatrix_eq]
    refine Eq.trans (entryCount_of_rowLength _ y.length (mapMatrix_rowLength _ x y)) (by simp)

/-- If label `k` occurs and there is a data row for every label, partition `k`
of the label filter is non-empty (shared helper). -/
theorem filterPartition_ne_nil {P : Type} (data : List P) (labels : List ℕ)
    (k : ℕ) (hlen : labels.length ≤ data.length) (hk : k ∈ labels) :
    (data.zip labels).filterMap
        (fun dl => if dl.2 = k then some dl.1 else none) ≠ [] := by
  induction labels generalizing data with
  | nil => cases hk
  | cons l ls ih =>
    cases data with
    | nil => simp at hlen
    | cons d ds =>
      by_cases hlk : l = k
      · subst hlk
        simp
      · have hk2 : k ∈ ls := by
          rcases List.mem_cons.mp hk with h | h
          · exact absurd h.symm hlk
          · exact h
        have hrec := ih ds (Nat.le_of_succ_le_succ hlen) hk2
        simpa [hlk] using hrec

/-- C6 (counterexample): a batch whose samples all carry label `0` makes
partition 1 of `tf.dynamic_partition(_, _, 2)` empty, and the kernel matrix
of that empty partition has zero entries, so the mean division-by-zero
branch IS reached (in TensorFlow this is `reduce_mean` over an empty tensor,
i.e. NaN) — contradicting the claim that the branch is unreachable. -/
theorem mmd_empty_partition_divzero_counterexample :
    (dynamicPartition [[(1 : ℚ)], [2]] [0, 0] 2).getD 1 [] = []
    ∧ meanDivByZero ((RCVAE.compute_kernel (fun q => 1 + q)
        ((dynamicPartition [[(1 : ℚ)], [2]] [0, 0] 2).getD 1 [])
        ((dynamicPartition [[(1 : ℚ)], [2]] [0, 0] 2).getD 1 [])
        "multi-scale-rbf" []).getD []) := by
  decide

/-- C6 (amended): the division-by-zero branch of the kernel-matrix mean is
unreachable precisely when both condition labels occur in the batch: if `0`
and `1` both occur among the labels (and every label has a data row), none of
the three kernel matrices used by `compute_mmd` on the two partitions is
degenerate.  A single-label batch does reach the branch (see the
counterexample), so the code does not define the degenerate behavior. -/
theorem mmd_partitions_nonempty_no_divzero {α : Type} [Field α] (expf : α → α)
    (kernel : String) (scales : List α) (yPred : List (List α))
    (labels : List ℕ) (hk : kernel ∈ ["rbf", "raphy", "multi-scale-rbf"])
    (hlen : labels.length ≤ yPred.length) (h0 : 0 ∈ labels) (h1 : 1 ∈ labels) :
    ¬ meanDivByZero ((RCVAE.compute_kernel expf
        ((dynamicPartition yPred labels 2).getD 0 [])
        ((dynamicPartition yPred labels 2).getD 0 []) kernel scales).getD [])
    ∧ ¬ meanDivByZero ((RCVAE.compute_kernel expf
        ((dynamicPartition yPred labels 2).getD 1 [])
        ((dynamicPartition yPred labels 2).getD 1 []) kernel scales).getD [])
    ∧ ¬ meanDivByZero ((RCVAE.compute_kernel expf
        ((dynamicPartition yPred labels 2).getD 0 [])
        ((dynamicPartition yPred labels 2).getD 1 []) kernel scales).getD []) := by
  have hp0 : (dynamicPartition yPred labels 2).getD 0 []
      = (yPred.zip labels).filterMap
          (fun dl => if dl.2 = 0 then some dl.1 else none) := rfl
  have hp1 : (dynamicPartition yPred labels 2).getD 1 []
      = (yPred.zip labels).filterMap
          (fun dl => if dl.2 = 1 then some dl.1 else none) := rfl
  have hne0 : (dynamicPartition yPred labels 2).getD 0 [] ≠ [] := by
    rw [hp0]; exact filterPartition_ne_nil yPred labels 0 hlen h0
  have hne1 : (dynamicPartition yPred labels 2).getD 1 [] ≠ [] := by
    rw [hp1]; exact filterPartition_ne_nil yPred labels 1 hlen h1
  have hlen0 : 0 < ((dynamicPartition yPred labels 2).getD 0 []).length :=
    List.length_pos.mpr hne0
  have hlen1 : 0 < ((dynamicPartition yPred labels 2).getD 1 []).length :=
    List.length_pos.mpr hne1
  refine ⟨?_, ?_, ?_⟩ <;>
    · intro hdeg
      unfold meanDivByZero at hdeg
      rw [entryCount_compute_kernel expf _ _ scales kernel hk] at hdeg
      rcases Nat.mul_eq_zero.mp hdeg with h | h <;> omega

/-- C6 (witness): both labels present in a concrete batch, no degenerate
mean. -/
theorem mmd_partitions_nonempty_no_divzero_witness :
    ¬ meanDivByZero ((RCVAE.compute_kernel (fun q => 1 + q)
        ((dynamicPartition [[(1 : ℚ)], [2]] [0, 1] 2).getD 0 [])
        ((dynamicPartition [[(1 : ℚ)], [2]] [0, 1] 2).getD 0 []) "rbf" []).getD [])
    ∧ ¬ meanDivByZero ((RCVAE.compute_kernel (fun q => 1 + q)
        ((dynamicPartition [[(1 : ℚ)], [2]] [0, 1] 2).getD 1 [])
        ((dynamicPartition [[(1 : ℚ)], [2]] [0, 1] 2).getD 1 []) "rbf" []).getD [])
    ∧ ¬ meanDivByZero ((RCVAE.compute_kernel (fun q => 1 + q)
        ((dynamicPartition [[(1 : ℚ)], [2]] [0, 1] 2).getD 0 [])
        ((dynamicPartition [[(1 : ℚ)], [2]] [0, 1] 2).getD 1 []) "rbf" []).getD []) :=
  mmd_partitions_nonempty_no_divzero (fun q => 1 + q) "rbf" [] [[(1 : ℚ)], [2]]
    [0, 1] (by decide) (by decide) (by decide) (by decide)

/-- On a constant validation-loss plateau the patience counter increments
every epoch, and the loop breaks as soon as it exceeds `patience`
(shared helper). -/
theorem plateauBreak {α : Type} [LinearOrderedField α] (validLoss : ℕ → α)
    (c δ : α) (b patience : ℕ) (hδ : 0 < δ) :
    ∀ n it cnt steps, patience - cnt < n →
      (∀ j, it ≤ j → j ≤ it + (patience - cnt) → validLoss j = c) →
      RCVAEMultiTF.runEpochs true validLoss b patience δ n it (some c) cnt steps
        = LoopOutcome.broke (it + (patience - cnt))
            (steps + (patience - cnt + 1) * b) := by
  intro n
  induction n with
  | zero => intro it cnt steps h _; omega
  | succ n ih =>
    intro it cnt steps hlt hconst
    have hcur : validLoss it = c := hconst it le_rfl (Nat.le_add_right _ _)
    simp only [RCVAEMultiTF.runEpochs, hcur, if_true]
    have hcc : ¬ (c - c > δ) := by
      simp only [sub_self, gt_iff_lt, not_lt]
      linarith
    rw [if_neg hcc]
    by_cases hbreak : cnt + 1 > patience
    · rw [if_pos hbreak]
      have hd : patience - cnt = 0 := by omega
      simp [hd]
    · rw [if_neg hbreak]
      have hd1 : patience - (cnt + 1) < n := by omega
      have hconst2 : ∀ j, it + 1 ≤ j → j ≤ (it + 1) + (patience - (cnt + 1)) →
          validLoss j = c := by
        intro j h1 h2
        exact hconst j (by omega) (by omega)
      rw [ih (it + 1) (cnt + 1) (steps + b) hd1 hconst2]
      have e1 : (it + 1) + (patience - (cnt + 1)) = it + (patience - cnt) := by omega
      have e2 : steps + b + (patience - (cnt + 1) + 1) * b
          = steps + (patience - cnt + 1) * b := by
        have h3 : patience - (cnt + 1) + 1 = patience - cnt := by omega
        have h4 : (patience - cnt + 1) * b = (patience - cnt) * b + b :=
          Nat.succ_mul _ _
        rw [h3, h4]
        omega
      rw [e1, e2]

/-- C8: in `RCVAEMultiTF.train` with validation, `early_stop_limit = 20` and
`threshold = 0.0025 = 1/400`, a validation-loss sequence constant over the
first 25 epochs makes the loop break at epoch index 20 — the 21st epoch of
the plateau, before the `n_epochs ≥ 25` budget is exhausted — with the
checkpoint saved on the break path (`saver.save` right before `break`); 21
epochs of optimizer steps have run. -/
theorem train_early_stop_plateau {α : Type} [LinearOrderedField α] {V : Type}
    (validLoss : ℕ → α) (c : α) (vd : V) (nEpochs b : ℕ)
    (hconst : ∀ i, i < 25 → validLoss i = c) (hn : 25 ≤ nEpochs) :
    RCVAEMultiTF.train true (some vd) validLoss nEpochs b 20 (1 / 400 : α)
      = Except.ok ⟨LoopOutcome.broke 20 (21 * b), true, true⟩ := by
  obtain ⟨m, rfl⟩ : ∃ m, nEpochs = m + 1 := ⟨nEpochs - 1, by omega⟩
  unfold RCVAEMultiTF.train
  rw [if_neg (by simp)]
  have h0 : validLoss 0 = c := hconst 0 (by omega)
  have hloop : RCVAEMultiTF.runEpochs true validLoss b 20 (1 / 400 : α)
      (m + 1) 0 none 0 0 = LoopOutcome.broke 20 (21 * b) := by
    simp only [RCVAEMultiTF.runEpochs, h0]
    rw [if_neg (by omega : ¬ (0 + 1 > 20))]
    have := plateauBreak validLoss c (1 / 400 : α) b 20 (by norm_num) m 1 1 (0 + b)
      (by omega) (by intro j h1 h2; exact hconst j (by omega))
    rw [this]
    norm_num
    ring
  rw [hloop]

/-- C8 (witness): the plateau early stop at a concrete configuration. -/
theorem train_early_stop_plateau_witness :
    RCVAEMultiTF.train true (some ()) (fun _ => (0 : ℚ)) 25 1 20 (1 / 400 : ℚ)
      = Except.ok ⟨LoopOutcome.broke 20 (21 * 1), true, true⟩ :=
  train_early_stop_plateau (fun _ => (0 : ℚ)) 0 () 25 1 (fun _ _ => rfl)
    (by omega)

/-- C9: `train` with `use_validation=True` and `valid_data=None` raises
`"valid_data is None but use_validation is True."` before the epoch loop —
so before any optimizer step or parameter update — and no such error is
raised when `use_validation` is `False` or validation data is supplied.
The same check guards `RCVAE.train` in `_rae.py` before `fit` is called. -/
theorem train_validation_config_error {α : Type} [LinearOrderedField α]
    {V : Type} (validLoss : ℕ → α) (nEpochs b patience : ℕ) (δ : α)
    (useValidation : Bool) (validData : Option V) :
    (useValidation = true ∧ validData = none →
      RCVAEMultiTF.train useValidation validData validLoss nEpochs b patience δ
        = Except.error "valid_data is None but use_validation is True.")
    ∧ (useValidation = false ∨ validData ≠ none →
      ∃ r, RCVAEMultiTF.train useValidation validData validLoss nEpochs b patience δ
        = Except.ok r) := by
  constructor
  · rintro ⟨rfl, rfl⟩
    rfl
  · intro h
    have hcond : (useValidation && validData.isNone) = false := by
      rcases h with h | h
      · subst h; rfl
      · cases validData with
        | none => exact absurd rfl h
        | some v => simp
    unfold RCVAEMultiTF.train
    rw [hcond]
    exact ⟨_, rfl⟩

/-- C9 (witness): the configuration error at a concrete call. -/
theorem train_validation_config_error_witness :
    RCVAEMultiTF.train (V := Unit) true none (fun _ => (0 : ℚ)) 3 1 20
        (1 / 400 : ℚ)
      = Except.error "valid_data is None but use_validation is True." :=
  (train_validation_config_error (fun _ => (0 : ℚ)) 3 1 20 (1 / 400 : ℚ)
    true none).1 ⟨rfl, rfl⟩

/-- `filterMap` with an if-some-none body is filtering then projecting
(shared helper). -/
theorem filterMap_if_eq_map_filter {γ δ : Type} (p : γ → Prop) [DecidablePred p]
    (f : γ → δ) (l : List γ) :
    l.filterMap (fun a => if p a then some (f a) else none)
      = (l.filter fun a => decide (p a)).map f := by
  induction l with
  | nil => rfl
  | cons a l ih =>
    by_cases h : p a <;> simp [h, ih]

/-- C10: the `mmd_loss` closures of `RCVAE._loss_function` (`_rae.py`) and
`RCCVAE._loss_function` (`_rccvae.py`) hard-code `num_partitions=2` whatever
condition list was configured: for a batch with labels in `{0,1}` the
partition list is exactly `[label-0 rows, label-1 rows]` and the loss
compares exactly those two groups; any label `≥ 2` violates the
`tf.dynamic_partition` precondition. -/
theorem mmd_loss_two_partitions {α : Type} [Field α] (expf : α → α) (beta : α)
    (kernel : String) (labels : List ℕ) (yPred : List (List α))
    (hlab : ∀ l ∈ labels, l < 2) :
    dynamicPartition yPred labels 2
        = [specGroup yPred labels 0, specGroup yPred labels 1]
    ∧ RCVAE.mmd_loss expf beta kernel labels yPred
        = (RCVAE.compute_mmd expf (specGroup yPred labels 0)
            (specGroup yPred labels 1) kernel []).map (fun l => beta * l)
    ∧ dynamicPartitionOk labels 2
    ∧ ∀ labels2 : List ℕ, (∃ l ∈ labels2, 2 ≤ l) →
        ¬ dynamicPartitionOk labels2 2 := by
  have hpart : ∀ k : ℕ,
      (yPred.zip labels).filterMap (fun dl => if dl.2 = k then some dl.1 else none)
        = specGroup yPred labels k := by
    intro k
    unfold specGroup
    exact filterMap_if_eq_map_filter
      (fun dl : List α × ℕ => dl.2 = k)
      (fun dl : List α × ℕ => dl.1) _
  have hdp : dynamicPartition yPred labels 2
      = [specGroup yPred labels 0, specGroup yPred labels 1] := by
    show [(yPred.zip labels).filterMap
        (fun dl => if dl.2 = 0 then some dl.1 else none),
      (yPred.zip labels).filterMap
        (fun dl => if dl.2 = 1 then some dl.1 else none)] = _
    rw [hpart 0, hpart 1]
  refine ⟨hdp, ?_, hlab, ?_⟩
  · unfold RCVAE.mmd_loss
    rw [hdp]
    rfl
  · rintro labels2 ⟨l, hl, h2⟩ hok
    exact absurd (hok l hl) (by omega)

/-- C10 (witness): the two-partition structure at a concrete batch. -/
theorem mmd_loss_two_partitions_witness :
    dynamicPartition [[(1 : ℚ)], [2]] [0, 1] 2
        = [specGroup [[(1 : ℚ)], [2]] [0, 1] 0, specGroup [[(1 : ℚ)], [2]] [0, 1] 1]
    ∧ RCVAE.mmd_loss (fun q => 1 + q) 100 "rbf" [0, 1] [[(1 : ℚ)], [2]]
        = (RCVAE.compute_mmd (fun q => 1 + q) (specGroup [[(1 : ℚ)], [2]] [0, 1] 0)
            (specGroup [[(1 : ℚ)], [2]] [0, 1] 1) "rbf" []).map (fun l => 100 * l)
    ∧ dynamicPartitionOk [0, 1] 2
    ∧ ∀ labels2 : List ℕ, (∃ l ∈ labels2, 2 ≤ l) →
        ¬ dynamicPartitionOk labels2 2 :=
  mmd_loss_two_partitions (fun q => 1 + q) 100 "rbf" [0, 1] [[(1 : ℚ)], [2]]
    (by decide)
